import Mathlib

/-!
Shallow embedding of `src/backend/rag_service.py` (class `RAGService`) and
proofs of the behavioural claims about it.

Conventions of the embedding:
* Python values stored in the `financial_metrics` mapping are modelled by
  `PyVal` (`none` covers both a missing key and an explicit `None`, which the
  code never distinguishes: it only reads metric values through
  `metrics.get(k)` and truthiness tests).
* Python strings are Lean `String`s; `dict.get(k)` on optional string fields
  is `Option.getD`; Python truthiness of an optional string field
  (missing / `None` / `""` are falsy) is `strTruthy`.
* A possibly-empty Python dict whose truthiness is tested is modelled as an
  `Option` of a structure, `Option.none` standing for the empty dict.
* The sentence-transformer embedding capability is external; it is passed in
  as a parameter `embed : String → Option (List ℚ)`, where `none` models an
  exception raised while encoding or inserting (the `try/except` in
  `_add_document_to_index` / `_search_similar_documents`).
* Python `float` arithmetic is modelled over `ℚ`; the thresholds and the
  concrete inputs of the claims are exactly representable, so no rounding
  behaviour is relevant.
-/

/-- A Python value as stored in a `financial_metrics` mapping.
`none` is a missing key or `None`. -/
inductive PyVal where
  | none : PyVal
  | str (s : String) : PyVal
  | num (q : ℚ) : PyVal
deriving DecidableEq, Repr

/-- Python truthiness of a `PyVal`: `None` and missing are falsy, a string is
truthy iff nonempty, a number is truthy iff nonzero. -/
def PyVal.truthy : PyVal → Bool
  | .none => false
  | .str s => !s.isEmpty
  | .num q => q != 0

/-- Digits to a natural number, most significant first
(model of the digit accumulation inside Python's `float(str)`). -/
def digitsVal (l : List Char) : ℕ :=
  l.foldl (fun n c => n * 10 + (c.toNat - 48)) 0

/-- Parse an unsigned decimal literal `digits [. digits]` (at least one digit
overall), the grammar fragment of Python `float(str)` exercised by this
program; exponents, `inf`/`nan` and underscore separators are not modelled. -/
def parseUnsignedDec (l : List Char) : Option ℚ :=
  let intPart := l.takeWhile Char.isDigit
  let rest := l.dropWhile Char.isDigit
  match rest with
  | [] => if intPart.isEmpty then Option.none else Option.some (digitsVal intPart : ℚ)
  | c :: rest2 =>
    if c = '.' then
      let fracPart := rest2.takeWhile Char.isDigit
      let rest3 := rest2.dropWhile Char.isDigit
      if rest3.isEmpty && !(intPart.isEmpty && fracPart.isEmpty) then
        Option.some ((digitsVal intPart : ℚ) + (digitsVal fracPart : ℚ) / (10 : ℚ) ^ fracPart.length)
      else Option.none
    else Option.none

/-- Model of Python `float(s)` on a string: strip surrounding whitespace,
optional sign, unsigned decimal literal; `Option.none` models `ValueError`. -/
def parsePyFloat (s : String) : Option ℚ :=
  let l := s.toList.dropWhile Char.isWhitespace
  let l := (l.reverse.dropWhile Char.isWhitespace).reverse
  match l with
  | '-' :: rest => (parseUnsignedDec rest).map (fun q => -q)
  | '+' :: rest => parseUnsignedDec rest
  | _ => parseUnsignedDec l

/-- Model of Python `float(v)` on a stored metric value: numbers convert to
themselves, strings are parsed, `None` raises (`Option.none`). -/
def PyVal.toFloat : PyVal → Option ℚ
  | .none => Option.none
  | .str s => parsePyFloat s
  | .num q => Option.some q

/-- The `financial_metrics` mapping: the five keys the code reads. -/
structure FinancialMetrics where
  market_cap : PyVal := .none
  pe_ratio : PyVal := .none
  pb_ratio : PyVal := .none
  roe : PyVal := .none
  net_margin : PyVal := .none
deriving DecidableEq, Repr

/-- A comparable-company record (`CompanyRecord` of the spec): the fields
`rag_service.py` reads.  `financial_metrics = none` models a missing key or
an empty (falsy) dict. -/
structure Company where
  name : Option String := Option.none
  ticker : Option String := Option.none
  rationale : Option String := Option.none
  industry : Option String := Option.none
  business_model : Option String := Option.none
  company_size : Option String := Option.none
  geographic_presence : Option String := Option.none
  financial_metrics : Option FinancialMetrics := Option.none
deriving DecidableEq, Repr

/-- Python truthiness of an optional string field. -/
def strTruthy : Option String → Bool
  | Option.none => false
  | Option.some s => !s.isEmpty

/-- The target-company dict: the fields `rag_service.py` reads. -/
structure TargetCompany where
  name : Option String := Option.none
  description : Option String := Option.none
deriving DecidableEq, Repr

/-- `self.current_context` after `set_comparison_context`: the five keys the
code always stores.  `target_company = none` models the empty dict default. -/
structure Context where
  target_company : Option TargetCompany := Option.none
  comparable_companies : List Company := []
  /-- `financial_data` is opaque to the engine; only its truthiness is read
  (`get_context_info`), so it is modelled by that Bool. -/
  financial_data : Bool := false
  analysis_timestamp : Option String := Option.none
  filters_applied : List (String × List String) := []
deriving DecidableEq, Repr

-- ### Financial Insight Extractor (`_extract_financial_insights`, lines 150-214)

/-- Guard `if metrics.get(k) and metrics[k] != "N/A":` of each metric block. -/
def metricGuard (v : PyVal) : Bool :=
  v.truthy && v != PyVal.str "N/A"

/-- The market-cap block of `_extract_financial_insights`. -/
def marketCapInsights (v : PyVal) : List String :=
  if metricGuard v then
    match v.toFloat with
    | Option.none => []
    | Option.some market_cap =>
      if market_cap > 10000000000 then ["Large-cap company (>$10B market cap)"]
      else if market_cap > 2000000000 then ["Mid-cap company ($2B-$10B market cap)"]
      else ["Small-cap company (<$2B market cap)"]
  else []

/-- The P/E block of `_extract_financial_insights`. -/
def peInsights (v : PyVal) : List String :=
  if metricGuard v then
    match v.toFloat with
    | Option.none => []
    | Option.some pe =>
      if pe < 15 then ["Low P/E ratio (<15) - potentially undervalued"]
      else if pe > 25 then ["High P/E ratio (>25) - growth expectations"]
      else []
  else []

/-- The P/B block of `_extract_financial_insights`. -/
def pbInsights (v : PyVal) : List String :=
  if metricGuard v then
    match v.toFloat with
    | Option.none => []
    | Option.some pb =>
      if pb < 1 then ["Trading below book value (P/B < 1)"]
      else if pb > 3 then ["High P/B ratio (>3) - premium valuation"]
      else []
  else []

/-- The ROE block of `_extract_financial_insights`. -/
def roeInsights (v : PyVal) : List String :=
  if metricGuard v then
    match v.toFloat with
    | Option.none => []
    | Option.some roe =>
      if roe > 15 then ["Strong ROE (>15%) - efficient use of equity"]
      else if roe < 5 then ["Low ROE (<5%) - efficiency concerns"]
      else []
  else []

/-- The net-margin block of `_extract_financial_insights`. -/
def netMarginInsights (v : PyVal) : List String :=
  if metricGuard v then
    match v.toFloat with
    | Option.none => []
    | Option.some margin =>
      if margin > 20 then ["High net margin (>20%) - strong profitability"]
      else if margin < 5 then ["Low net margin (<5%) - thin margins"]
      else []
  else []

/-- `_extract_financial_insights(company_data)`: empty if the
`financial_metrics` mapping is missing/falsy, otherwise the metric blocks
appended in source order. -/
def extractFinancialInsights (c : Company) : List String :=
  match c.financial_metrics with
  | Option.none => []
  | Option.some m =>
    marketCapInsights m.market_cap ++ peInsights m.pe_ratio ++ pbInsights m.pb_ratio
      ++ roeInsights m.roe ++ netMarginInsights m.net_margin

-- ### Pattern Analyzer (`_analyze_comparison_patterns`, lines 216-253)

/-- Increment a key of an insertion-ordered counting dict
(`d[k] = d.get(k, 0) + 1` on a Python dict, which preserves insertion order). -/
def bumpKey (l : List (String × ℕ)) (k : String) : List (String × ℕ) :=
  match l with
  | [] => [(k, 1)]
  | (k', v) :: rest => if k' = k then (k', v + 1) :: rest else (k', v) :: bumpKey rest k

/-- Truthy substring containment, Python's `needle in haystack`. -/
def pyIn (needle hay : String) : Bool :=
  decide (List.IsInfix needle.toList hay.toList)

/-- The result dict of `_analyze_comparison_patterns` (when non-empty). -/
structure Patterns where
  industry_distribution : List (String × ℕ)
  size_large : ℕ
  size_medium : ℕ
  size_small : ℕ
  geographic_distribution : List (String × ℕ)
  total_companies : ℕ
deriving DecidableEq, Repr

/-- The size-bucket loop body: companies with a falsy `company_size` are not
counted; otherwise bucket by substring test on the lower-cased value. -/
def sizeCounts (companies : List Company) : ℕ × ℕ × ℕ :=
  companies.foldl
    (fun acc c =>
      match c.company_size with
      | Option.none => acc
      | Option.some sz =>
        if sz.isEmpty then acc
        else
          let s := sz.toLower
          if pyIn "large" s || pyIn "enterprise" s then (acc.1 + 1, acc.2.1, acc.2.2)
          else if pyIn "medium" s || pyIn "mid" s then (acc.1, acc.2.1 + 1, acc.2.2)
          else (acc.1, acc.2.1, acc.2.2 + 1))
    (0, 0, 0)

/-- `_analyze_comparison_patterns`: returns the empty dict (`Option.none`)
when `comparable_companies` is missing or empty. -/
def analyzeComparisonPatterns (ctxO : Option Context) : Option Patterns :=
  match ctxO with
  | Option.none => Option.none
  | Option.some ctx =>
    if ctx.comparable_companies.isEmpty then Option.none
    else
      let companies := ctx.comparable_companies
      let industries := companies.foldl
        (fun acc c => if strTruthy c.industry then bumpKey acc (c.industry.getD "") else acc) []
      let sizes := sizeCounts companies
      let geos := companies.foldl
        (fun acc c =>
          if strTruthy c.geographic_presence then bumpKey acc (c.geographic_presence.getD "")
          else acc) []
      Option.some
        { industry_distribution := industries
          size_large := sizes.1
          size_medium := sizes.2.1
          size_small := sizes.2.2
          geographic_distribution := geos
          total_companies := companies.length }

-- ### Document Indexer (`_index_comparison_data`, lines 57-103)

/-- Metadata attached to an indexed document: the `type` tag together with the
company dict stored under `"company"`. -/
inductive DocMeta where
  | targetCompany (t : TargetCompany) : DocMeta
  | comparableCompany (c : Company) : DocMeta
  | financialMetrics (c : Company) : DocMeta
  | businessProfile (c : Company) : DocMeta
deriving DecidableEq, Repr

/-- The `type` string of a metadata entry. -/
def DocMeta.typeTag : DocMeta → String
  | .targetCompany _ => "target_company"
  | .comparableCompany _ => "comparable_company"
  | .financialMetrics _ => "financial_metrics"
  | .businessProfile _ => "business_profile"

/-- Rendering of a metric value inside the financial-metrics document
(`metrics.get(k, 'N/A')` interpolated into an f-string).  Numbers are
rendered by `ℚ`'s `toString` (the claims never inspect these characters). -/
def pyValRender (v : PyVal) (dflt : String) : String :=
  match v with
  | .none => dflt
  | .str s => s
  | .num q => toString q

/-- The target-company document text (line 71). -/
def targetText (t : TargetCompany) : String :=
  "Target company: " ++ t.name.getD "Unknown" ++ " - " ++ t.description.getD ""

/-- The company-overview document text (line 79). -/
def overviewText (c : Company) : String :=
  "Company: " ++ c.name.getD "Unknown" ++ " (" ++ c.ticker.getD "N/A" ++ ") - "
    ++ c.rationale.getD ""

/-- The financial-metrics document text (lines 85-89). -/
def financialText (c : Company) (m : FinancialMetrics) : String :=
  "Financial metrics for " ++ c.name.getD "Unknown" ++ ": "
    ++ "Market cap: " ++ pyValRender m.market_cap "N/A" ++ ", "
    ++ "P/E ratio: " ++ pyValRender m.pe_ratio "N/A" ++ ", "
    ++ "ROE: " ++ pyValRender m.roe "N/A" ++ ", "
    ++ "Net margin: " ++ pyValRender m.net_margin "N/A"

/-- The business-profile document text (lines 94-102): starts from the fixed
header and appends one fragment per truthy field. -/
def businessText (c : Company) : String :=
  let t0 := "Business profile for " ++ c.name.getD "Unknown" ++ ": "
  let t1 := if strTruthy c.industry then t0 ++ "Industry: " ++ c.industry.getD "" ++ ", " else t0
  let t2 := if strTruthy c.business_model then
      t1 ++ "Business model: " ++ c.business_model.getD "" ++ ", " else t1
  let t3 := if strTruthy c.company_size then
      t2 ++ "Size: " ++ c.company_size.getD "" ++ ", " else t2
  if strTruthy c.geographic_presence then
    t3 ++ "Geography: " ++ c.geographic_presence.getD "" else t3

/-- The documents a single comparable company contributes, in source order:
overview always; financial metrics if the mapping is truthy; business profile
only under `if company.get("industry") or company.get("business_model")`
(line 93). -/
def companyDocs (c : Company) : List (String × DocMeta) :=
  [(overviewText c, DocMeta.comparableCompany c)]
    ++ (match c.financial_metrics with
        | Option.none => []
        | Option.some m => [(financialText c m, DocMeta.financialMetrics c)])
    ++ (if strTruthy c.industry || strTruthy c.business_model then
          [(businessText c, DocMeta.businessProfile c)]
        else [])

/-- All documents derived from a context: the target document (if the target
dict is truthy) followed by each comparable company's documents. -/
def contextDocuments (ctx : Context) : List (String × DocMeta) :=
  (match ctx.target_company with
   | Option.none => []
   | Option.some t => [(targetText t, DocMeta.targetCompany t)])
    ++ (ctx.comparable_companies.map companyDocs).flatten

/-- An embedding vector. -/
abbrev Vec := List ℚ

/-- The mutable state of a `RAGService` instance. -/
structure RAGState where
  conversation_history : List (String × String × String) := []
  current_context : Option Context := Option.none
  documents : List String := []
  document_metadata : List DocMeta := []
  index : List Vec := []
deriving DecidableEq, Repr

/-- `_add_document_to_index` (lines 105-121): on an embedding/indexing
exception (`embed text = none`) the document is skipped whole; otherwise the
vector, the text and the metadata are appended in parallel. -/
def addDocumentToIndex (embed : String → Option Vec) (s : RAGState)
    (text : String) (meta : DocMeta) : RAGState :=
  match embed text with
  | Option.none => s
  | Option.some v =>
    { s with
      index := s.index ++ [v]
      documents := s.documents ++ [text]
      document_metadata := s.document_metadata ++ [meta] }

/-- The documents derived from the current context (`current_context = {}`
yields the empty-dict defaults on lines 68 and 76, hence no documents). -/
def currentDocuments (ctxO : Option Context) : List (String × DocMeta) :=
  match ctxO with
  | Option.none => []
  | Option.some ctx => contextDocuments ctx

/-- `_index_comparison_data` (lines 57-103): reset the index and both storages,
then add every document derived from the current context. -/
def indexComparisonData (embed : String → Option Vec) (s : RAGState) : RAGState :=
  (currentDocuments s.current_context).foldl
    (fun st p => addDocumentToIndex embed st p.1 p.2)
    { s with index := [], documents := [], document_metadata := [] }

/-- The `comparison_data` argument of `set_comparison_context`. -/
structure ComparisonData where
  target_company : Option TargetCompany := Option.none
  comparable_companies : List Company := []
  financial_data : Bool := false
  analysis_timestamp : Option String := Option.none
  filters : List (String × List String) := []
deriving DecidableEq, Repr

/-- The context dict built by `set_comparison_context` (lines 34-40). -/
def contextOfData (d : ComparisonData) : Context :=
  { target_company := d.target_company
    comparable_companies := d.comparable_companies
    financial_data := d.financial_data
    analysis_timestamp := d.analysis_timestamp
    filters_applied := d.filters }

/-- `set_comparison_context` (lines 32-43): store the five-key context dict,
then rebuild the index. -/
def setComparisonContext (embed : String → Option Vec) (s : RAGState)
    (d : ComparisonData) : RAGState :=
  indexComparisonData embed { s with current_context := Option.some (contextOfData d) }

/-- `add_to_conversation` (lines 45-55): append the timestamped turn, then
keep only the last 10 turns when the length exceeds 10. -/
def addToConversation (s : RAGState) (timestamp user assistant : String) : RAGState :=
  let h := s.conversation_history ++ [(timestamp, user, assistant)]
  { s with conversation_history := if h.length > 10 then h.drop (h.length - 10) else h }

/-- `clear_conversation` (lines 502-504). -/
def clearConversation (s : RAGState) : RAGState :=
  { s with conversation_history := [] }

-- ### Vector Index (`faiss.IndexFlatIP` adapter, spec section 4.2)

/-- Inner product of two vectors. -/
def dotProduct (a b : Vec) : ℚ :=
  (List.zipWith (fun x y => x * y) a b).sum

/-- Comparison key for search hits `(score, position)`: higher score first,
ties by lower insertion position. -/
def hitLE (a b : ℚ × ℕ) : Bool :=
  if a.1 = b.1 then a.2 ≤ b.2 else b.1 < a.1

/-- Modelled from the spec: `self.index.search(query_embedding, k)` is
implemented by the external FAISS library, not by repository code.  Spec
section 4.2 specifies it: score every stored vector by inner product with the
query, return up to `min(k, count)` hits `(score, position)` sorted by
descending score, ties broken by insertion order (lower position first). -/
def searchIndex (vecs : List Vec) (q : Vec) (k : ℕ) : List (ℚ × ℕ) :=
  (((vecs.map (dotProduct q)).enum.map (fun p => (p.2, p.1))).mergeSort hitLE).take k

/-- A search hit as returned by `_search_similar_documents`. -/
structure SearchResult where
  text : String
  metadata : DocMeta
  score : ℚ
deriving DecidableEq, Repr

/-- `_search_similar_documents` (lines 123-148): empty index (or an
unavailable model) returns `[]`; an exception while embedding the query
(`embed query = none`) returns `[]`; otherwise search with
`min(top_k, ntotal)` and keep hits whose position is below
`len(self.documents)`, attaching the stored text and metadata. -/
def searchSimilarDocuments (embed : String → Option Vec) (s : RAGState)
    (query : String) (topK : ℕ) : List SearchResult :=
  if s.index.length = 0 then []
  else
    match embed query with
    | Option.none => []
    | Option.some qv =>
      ((searchIndex s.index qv (min topK s.index.length)).filter
          (fun p => p.2 < s.documents.length)).map
        (fun p =>
          { text := s.documents.getD p.2 ""
            metadata := s.document_metadata.getD p.2 (DocMeta.targetCompany {})
            score := p.1 })

-- ### Response Synthesizer (`_generate_context_summary` and handlers)

/-- One line of the first-three-companies loop in `_generate_context_summary`
(lines 270-276). -/
def companyInsightLine (c : Company) : String :=
  let base := c.name.getD "Unknown" ++ " (" ++ c.ticker.getD "N/A" ++ "): "
  match extractFinancialInsights c with
  | [] => base ++ "Financial data available\n"
  | i :: _ => base ++ i ++ "\n"

/-- `_generate_context_summary` (lines 255-278). -/
def generateContextSummary (ctxO : Option Context) : String :=
  match ctxO with
  | Option.none => "No comparison data available."
  | Option.some ctx =>
    let targetName := match ctx.target_company with
      | Option.none => "Unknown company"
      | Option.some t => t.name.getD "Unknown company"
    let companies := ctx.comparable_companies
    let s1 := "Current analysis: " ++ targetName ++ "\n"
      ++ "Found " ++ toString companies.length ++ " comparable companies\n\n"
    let s2 := match ctx.target_company with
      | Option.none => s1
      | Option.some t =>
        if strTruthy t.description then
          s1 ++ "Target company description: " ++ (t.description.getD "").take 200 ++ "...\n\n"
        else s1
    (companies.take 3).foldl (fun acc c => acc ++ companyInsightLine c) s2

/-- `.replace('_', ' ').title()` applied to the four emitted `type` tags
(line 329). -/
def DocMeta.typeTitle : DocMeta → String
  | .targetCompany _ => "Target Company"
  | .comparableCompany _ => "Comparable Company"
  | .financialMetrics _ => "Financial Metrics"
  | .businessProfile _ => "Business Profile"

/-- `doc["metadata"].get("company", {}).get("name", "Unknown")` (line 327). -/
def DocMeta.companyName : DocMeta → String
  | .targetCompany t => t.name.getD "Unknown"
  | .comparableCompany c => c.name.getD "Unknown"
  | .financialMetrics c => c.name.getD "Unknown"
  | .businessProfile c => c.name.getD "Unknown"

/-- One numbered block of the relevant-documents list (lines 325-330). -/
def relevantDocLine (i : ℕ) (r : SearchResult) : String :=
  toString i ++ ". " ++ r.metadata.typeTitle ++ " for " ++ r.metadata.companyName ++ ":\n"
    ++ "   " ++ r.text.take 200 ++ "...\n\n"

/-- The key-patterns block shared by `_generate_enhanced_response` (lines
337-342): the industry line only when the industry distribution is non-empty,
the sizes line always (the size dict is never empty). -/
def keyPatternsBlock (header : String) (p : Patterns) : String :=
  let a := header
  let b := if p.industry_distribution.isEmpty then a
    else a ++ "- Industry focus: "
      ++ String.intercalate ", " (p.industry_distribution.map Prod.fst) ++ "\n"
  b ++ "- Company sizes: " ++ toString p.size_large ++ " large, "
    ++ toString p.size_medium ++ " medium, " ++ toString p.size_small ++ " small\n"

/-- `_generate_enhanced_response` (lines 318-351). -/
def generateEnhancedResponse (query : String) (relevantDocs : List SearchResult)
    (contextSummary : String) (patterns : Option Patterns) : String :=
  let r0 := "Based on your query: '" ++ query ++ "'\n\n"
    ++ "**Relevant Information Found:**\n"
  let r1 := (relevantDocs.enum.foldl (fun acc p => acc ++ relevantDocLine (p.1 + 1) p.2) r0)
  let r2 := r1 ++ "**Context Summary:**\n" ++ contextSummary ++ "\n\n"
  let r3 := match patterns with
    | Option.none => r2
    | Option.some p => keyPatternsBlock (r2 ++ "**Key Patterns:**\n") p
  r3 ++ "\n**You can ask me about:**\n"
    ++ "- Specific companies and their metrics\n"
    ++ "- Financial comparisons between companies\n"
    ++ "- Industry trends and patterns\n"
    ++ "- Investment insights and recommendations\n"

/-- `_handle_summary_query` (lines 353-366). -/
def handleSummaryQuery (contextSummary : String) (patterns : Option Patterns) : String :=
  let r := contextSummary ++ "\n\n"
  match patterns with
  | Option.none => r
  | Option.some p =>
    let c := keyPatternsBlock (r ++ "Key patterns:\n") p
    if p.geographic_distribution.isEmpty then c
    else c ++ "- Geographic presence: "
      ++ String.intercalate ", " (p.geographic_distribution.map Prod.fst) ++ "\n"

/-- One company block of `_handle_financial_query` (lines 377-393). -/
def financialCompanyBlock (c : Company) : String :=
  let head := "**" ++ c.name.getD "Unknown" ++ " (" ++ c.ticker.getD "N/A" ++ ")**\n"
  let mid := match c.financial_metrics with
    | Option.none => "- No financial data available\n"
    | Option.some _ =>
      match extractFinancialInsights c with
      | [] => "- Financial data available\n"
      | i :: _ => "- " ++ i ++ "\n"
  head ++ mid ++ "\n"

/-- `_handle_financial_query` (lines 368-395). -/
def handleFinancialQuery (ctx : Context) : String :=
  if ctx.comparable_companies.isEmpty then
    "No comparable companies available for financial analysis."
  else
    (ctx.comparable_companies.take 5).foldl (fun acc c => acc ++ financialCompanyBlock c)
      "Financial analysis of comparable companies:\n\n"

/-- `_handle_industry_query` (lines 397-421). -/
def handleIndustryQuery (ctx : Context) (patterns : Option Patterns) : String :=
  let indDist := match patterns with
    | Option.none => []
    | Option.some p => p.industry_distribution
  if indDist.isEmpty then "No industry data available for analysis."
  else
    let r := "Industry and business model analysis:\n\n**Industry Distribution:**\n"
    let r := indDist.foldl
      (fun acc p => acc ++ "- " ++ p.1 ++ ": " ++ toString p.2 ++ " companies\n") r
    let r := r ++ "\n**Business Characteristics:**\n"
    let models := ctx.comparable_companies.foldl
      (fun acc c =>
        if strTruthy c.business_model then bumpKey acc (c.business_model.getD "") else acc) []
    models.foldl (fun acc p => acc ++ "- " ++ p.1 ++ ": " ++ toString p.2 ++ " companies\n") r

/-- One company block of `_handle_comparison_query` (lines 433-448). -/
def comparisonBlock (c : Company) : String :=
  "**" ++ c.name.getD "Unknown" ++ " (" ++ c.ticker.getD "N/A" ++ ")**\n"
    ++ "Rationale: " ++ (c.rationale.getD "").take 150 ++ "...\n"
    ++ (match c.financial_metrics with
        | Option.none => ""
        | Option.some _ =>
          match extractFinancialInsights c with
          | [] => ""
          | i :: _ => "Key insight: " ++ i ++ "\n")
    ++ "\n"

/-- `_handle_comparison_query` (lines 423-450). -/
def handleComparisonQuery (ctx : Context) : String :=
  if ctx.comparable_companies.length < 2 then
    "Need at least 2 companies for comparison analysis."
  else
    (ctx.comparable_companies.take 3).foldl (fun acc c => acc ++ comparisonBlock c)
      "Company comparison analysis:\n\n"

/-- `_handle_recommendation_query` (lines 452-481). -/
def handleRecommendationQuery (ctx : Context) : String :=
  if ctx.comparable_companies.isEmpty then "No companies available for recommendations."
  else
    let r := "Based on the current comparison data:\n\n"
    let withFin := ctx.comparable_companies.filter (fun c => c.financial_metrics.isSome)
    if withFin.isEmpty then
      r ++ "**Recommendations:**\n"
        ++ "1. Run comparison with financial data enabled for deeper insights\n"
        ++ "2. Use filters to narrow down to specific industries or company sizes\n"
        ++ "3. Consider refining your search criteria for better matches\n"
    else
      let r := r ++ "**Companies with comprehensive financial data:**\n"
      let r := (withFin.take 3).foldl
        (fun acc c => acc ++ "- " ++ c.name.getD "Unknown" ++ " (" ++ c.ticker.getD "N/A" ++ ")\n") r
      r ++ "\n**Recommendations:**\n"
        ++ "1. Focus on companies with complete financial metrics for detailed analysis\n"
        ++ "2. Consider industry alignment with your target company\n"
        ++ "3. Evaluate geographic presence for market expansion insights\n"

/-- `_handle_general_query` (lines 483-496). -/
def handleGeneralQuery (query : String) (contextSummary : String) : String :=
  "I understand you're asking about: " ++ query ++ "\n\n"
    ++ "Here's what I can tell you about the current comparison:\n\n"
    ++ contextSummary
    ++ "\n\nYou can ask me about:\n"
    ++ "- Summary and overview of the comparison\n"
    ++ "- Financial metrics and ratios\n"
    ++ "- Industry and business model analysis\n"
    ++ "- Company comparisons and differences\n"
    ++ "- Recommendations and suggestions\n"

/-- `any(word in query_lower for word in words)`. -/
def containsAny (queryLower : String) (words : List String) : Bool :=
  words.any (fun w => pyIn w queryLower)

/-- The fixed advisory string of the no-context path (line 283). -/
def noContextMessage : String :=
  "I don't have any company comparison data to work with. Please run a comparison first."

/-- The response-generation part of `process_query` (lines 285-311), reached
only with a truthy context: FAISS retrieval, then either the enhanced
response or the ordered keyword dispatch. -/
def generateResponse (embed : String → Option Vec) (s : RAGState) (ctx : Context)
    (userQuery : String) : String :=
  let relevantDocs := searchSimilarDocuments embed s userQuery 3
  let queryLower := userQuery.toLower
  let contextSummary := generateContextSummary (Option.some ctx)
  let patterns := analyzeComparisonPatterns (Option.some ctx)
  if !relevantDocs.isEmpty then
    generateEnhancedResponse userQuery relevantDocs contextSummary patterns
  else if containsAny queryLower ["summary", "overview", "what", "tell me"] then
    handleSummaryQuery contextSummary patterns
  else if containsAny queryLower ["financial", "metrics", "ratios", "valuation"] then
    handleFinancialQuery ctx
  else if containsAny queryLower ["industry", "sector", "business"] then
    handleIndustryQuery ctx patterns
  else if containsAny queryLower ["compare", "difference", "similar"] then
    handleComparisonQuery ctx
  else if containsAny queryLower ["recommend", "suggest", "best"] then
    handleRecommendationQuery ctx
  else
    handleGeneralQuery userQuery contextSummary

/-- `process_query` (lines 280-316): with a falsy context, return the fixed
advisory string immediately (no turn is recorded); otherwise generate the
response, record the turn and return the response.  The timestamp produced by
`datetime.now().isoformat()` is passed in as a parameter. -/
def processQuery (embed : String → Option Vec) (timestamp : String) (s : RAGState)
    (userQuery : String) : String × RAGState :=
  match s.current_context with
  | Option.none => (noContextMessage, s)
  | Option.some ctx =>
    let response := generateResponse embed s ctx userQuery
    (response, addToConversation s timestamp userQuery response)

/-- `get_context_info` (lines 506-514). -/
def getContextInfo (s : RAGState) : Bool × String × ℕ × Bool × ℕ :=
  (s.current_context.isSome,
   (match s.current_context with
    | Option.none => "None"
    | Option.some ctx =>
      match ctx.target_company with
      | Option.none => "None"
      | Option.some t => t.name.getD "None"),
   (match s.current_context with
    | Option.none => 0
    | Option.some ctx => ctx.comparable_companies.length),
   (match s.current_context with
    | Option.none => false
    | Option.some ctx => ctx.financial_data),
   s.conversation_history.length)

/-- A sequence of `process_query` calls (all sharing one timestamp value),
keeping only the final state. -/
def runQueries (embed : String → Option Vec) (timestamp : String) (s : RAGState)
    (qs : List String) : RAGState :=
  qs.foldl (fun st q => (processQuery embed timestamp st q).2) s

-- ### Helper lemmas

theorem string_eq_empty_iff {s : String} : s = "" ↔ s.data = [] := by
  constructor
  · intro h; subst h; rfl
  · intro h; cases s with
    | mk d => simp only [String.data] at h; subst h; rfl

theorem append_ne_empty_left {s : String} (t : String) (h : s ≠ "") : s ++ t ≠ "" := by
  intro he
  have hd := congrArg String.data he
  rw [String.data_append] at hd
  exact h (string_eq_empty_iff.mpr (List.append_eq_nil.mp hd).1)

theorem append_ne_empty_right (s : String) {t : String} (h : t ≠ "") : s ++ t ≠ "" := by
  intro he
  have hd := congrArg String.data he
  rw [String.data_append] at hd
  exact h (string_eq_empty_iff.mpr (List.append_eq_nil.mp hd).2)

theorem foldl_append_ne_empty {α : Type} (g : α → String) (l : List α) {base : String}
    (h : base ≠ "") : l.foldl (fun acc c => acc ++ g c) base ≠ "" := by
  induction l generalizing base with
  | nil => exact h
  | cons a as ih => exact ih (append_ne_empty_left (g a) h)

-- ### Claim C1

/-- C1 counterexample: with no active context, `process_query` returns the
fixed advisory string but returns *before* `add_to_conversation`, so the
conversation history does **not** grow by one — it stays empty. -/
theorem claim_C1_counterexample :
    (processQuery (fun _ => Option.none) "2024-01-01T00:00:00" {} "What is this?").1
        = noContextMessage
      ∧ (processQuery (fun _ => Option.none) "2024-01-01T00:00:00" {} "What is this?").2
          = ({} : RAGState)
      ∧ ¬((processQuery (fun _ => Option.none) "2024-01-01T00:00:00" {}
            "What is this?").2.conversation_history.length
          = ({} : RAGState).conversation_history.length + 1) := by
  refine ⟨rfl, rfl, ?_⟩
  decide

/-- C1 (amended): for every query issued while no context is active,
`process_query` returns the fixed advisory string and leaves the whole state
— in particular the conversation history — unchanged; no turn is recorded. -/
theorem claim_C1 (embed : String → Option Vec) (timestamp : String) (s : RAGState)
    (q : String) (h : s.current_context = Option.none) :
    processQuery embed timestamp s q = (noContextMessage, s) := by
  unfold processQuery
  rw [h]

/-- Witness for C1 at a concrete input. -/
theorem claim_C1_witness :
    (({} : RAGState).current_context = Option.none)
      ∧ processQuery (fun _ => Option.none) "t0" {} "hello" = (noContextMessage, {}) :=
  ⟨rfl, claim_C1 (fun _ => Option.none) "t0" {} "hello" rfl⟩

-- ### Claim C2

/-- C2 counterexample: a comparable company whose only business field is
`company_size` (or only `geographic_presence`) gets **no** business-profile
document — the guard on line 93 tests only `industry` and `business_model`. -/
theorem claim_C2_counterexample :
    ((companyDocs { company_size := Option.some "Large" }).filter
        (fun p => p.2.typeTag = "business_profile")) = []
      ∧ ((companyDocs { geographic_presence := Option.some "Global" }).filter
          (fun p => p.2.typeTag = "business_profile")) = [] := by
  decide

/-- C2 (amended): a comparable company gets a business-profile document iff
`industry` or `business_model` is present (truthy); when emitted, the document
text concatenates exactly the present fields of
industry/business_model/company_size/geographic_presence (`businessText`).
A company with only `company_size` or only `geographic_presence` gets none. -/
theorem claim_C2 (c : Company) :
    (companyDocs c).filter (fun p => p.2.typeTag = "business_profile")
      = (if strTruthy c.industry || strTruthy c.business_model then
          [(businessText c, DocMeta.businessProfile c)]
        else []) := by
  unfold companyDocs
  rw [List.filter_append, List.filter_append]
  cases c.financial_metrics <;>
    rcases h : strTruthy c.industry || strTruthy c.business_model <;>
      simp [h, DocMeta.typeTag]

-- ### Claim C3

/-- C3 counterexample: the numeric value `0` parses as the number `0` and is
not the sentinel, yet the truthiness guard `if metrics.get("market_cap")`
skips it, so no Small-cap insight is emitted. -/
theorem claim_C3_counterexample :
    (PyVal.num 0).toFloat = Option.some 0
      ∧ PyVal.num 0 ≠ PyVal.str "N/A"
      ∧ extractFinancialInsights
          { financial_metrics := Option.some { market_cap := PyVal.num 0 } } = [] := by
  refine ⟨rfl, by decide, rfl⟩

/-- C3 (amended): a metric is evaluated iff its raw value is Python-truthy
(nonzero number or nonempty string), differs from the sentinel `"N/A"`, and
parses as a number; under that guard market cap always emits exactly one
label.  Hence the string `"0"` (truthy, parses to 0) yields the Small-cap
label, while the *number* `0` is falsy and is skipped. -/
theorem claim_C3 (v : PyVal) :
    (marketCapInsights v ≠ []
        ↔ metricGuard v = true ∧ (PyVal.toFloat v).isSome = true)
      ∧ (metricGuard v = false →
          marketCapInsights v = [] ∧ peInsights v = [] ∧ pbInsights v = []
            ∧ roeInsights v = [] ∧ netMarginInsights v = [])
      ∧ marketCapInsights (PyVal.str "0") = ["Small-cap company (<$2B market cap)"]
      ∧ marketCapInsights (PyVal.num 0) = [] := by
  refine ⟨?_, ?_, by decide, rfl⟩
  · unfold marketCapInsights
    rcases hg : metricGuard v with _ | _
    · simp [hg]
    · rcases hf : v.toFloat with _ | q
      · simp [hg, hf]
      · constructor
        · intro _; exact ⟨rfl, by simp [hf]⟩
        · intro _
          simp only [hg, hf, if_true]
          split
          · simp
          · split <;> simp
  · intro hg
    unfold marketCapInsights peInsights pbInsights roeInsights netMarginInsights
    simp [hg]

-- ### Claim C4

/-- C4: per company, insights are the five metric blocks appended in the fixed
order (market cap, P/E, P/B, ROE, net margin), each block contributing at most
one label; thresholds are strict: market cap 10,000,000,001 is Large-cap,
market cap exactly 2,000,000,000 is Small-cap, and P/E exactly 15 or exactly
25 yields no P/E label. -/
theorem claim_C4 :
    (∀ (c : Company) (m : FinancialMetrics),
        extractFinancialInsights { c with financial_metrics := Option.some m }
          = marketCapInsights m.market_cap ++ peInsights m.pe_ratio
              ++ pbInsights m.pb_ratio ++ roeInsights m.roe
              ++ netMarginInsights m.net_margin)
      ∧ (∀ v, (marketCapInsights v).length ≤ 1 ∧ (peInsights v).length ≤ 1
          ∧ (pbInsights v).length ≤ 1 ∧ (roeInsights v).length ≤ 1
          ∧ (netMarginInsights v).length ≤ 1)
      ∧ extractFinancialInsights
          { financial_metrics := Option.some { market_cap := PyVal.num 10000000001 } }
          = ["Large-cap company (>$10B market cap)"]
      ∧ extractFinancialInsights
          { financial_metrics := Option.some { market_cap := PyVal.num 2000000000 } }
          = ["Small-cap company (<$2B market cap)"]
      ∧ extractFinancialInsights
          { financial_metrics := Option.some { pe_ratio := PyVal.num 15 } } = []
      ∧ extractFinancialInsights
          { financial_metrics := Option.some { pe_ratio := PyVal.num 25 } } = [] := by
  refine ⟨?_, ?_, by decide, by decide, by decide, by decide⟩
  · intro c m; rfl
  · intro v
    unfold marketCapInsights peInsights pbInsights roeInsights netMarginInsights
    refine ⟨?_, ?_, ?_, ?_, ?_⟩ <;> (repeat' split) <;> simp

-- ### Indexing fold lemmas (shared by C6 and C8)

attribute [ext] RAGState

theorem indexFold_documents (embed : String → Option Vec)
    (ds : List (String × DocMeta)) : ∀ (s0 : RAGState),
    (ds.foldl (fun st p => addDocumentToIndex embed st p.1 p.2) s0).documents
      = s0.documents
          ++ ds.filterMap (fun p =>
              if (embed p.1).isSome then Option.some p.1 else Option.none) := by
  induction ds with
  | nil => intro s0; simp
  | cons d tl ih =>
    intro s0
    rw [List.foldl_cons, ih, List.filterMap_cons]
    unfold addDocumentToIndex
    cases h : embed d.1 <;> simp [h]

theorem indexFold_metadata (embed : String → Option Vec)
    (ds : List (String × DocMeta)) : ∀ (s0 : RAGState),
    (ds.foldl (fun st p => addDocumentToIndex embed st p.1 p.2) s0).document_metadata
      = s0.document_metadata
          ++ ds.filterMap (fun p =>
              if (embed p.1).isSome then Option.some p.2 else Option.none) := by
  induction ds with
  | nil => intro s0; simp
  | cons d tl ih =>
    intro s0
    rw [List.foldl_cons, ih, List.filterMap_cons]
    unfold addDocumentToIndex
    cases h : embed d.1 <;> simp [h]

theorem indexFold_index (embed : String → Option Vec)
    (ds : List (String × DocMeta)) : ∀ (s0 : RAGState),
    (ds.foldl (fun st p => addDocumentToIndex embed st p.1 p.2) s0).index
      = s0.index ++ ds.filterMap (fun p => embed p.1) := by
  induction ds with
  | nil => intro s0; simp
  | cons d tl ih =>
    intro s0
    rw [List.foldl_cons, ih, List.filterMap_cons]
    unfold addDocumentToIndex
    cases h : embed d.1 <;> simp [h]

theorem indexFold_context (embed : String → Option Vec)
    (ds : List (String × DocMeta)) : ∀ (s0 : RAGState),
    (ds.foldl (fun st p => addDocumentToIndex embed st p.1 p.2) s0).current_context
      = s0.current_context := by
  induction ds with
  | nil => intro s0; rfl
  | cons d tl ih =>
    intro s0
    rw [List.foldl_cons, ih]
    unfold addDocumentToIndex
    cases embed d.1 <;> rfl

theorem indexFold_history (embed : String → Option Vec)
    (ds : List (String × DocMeta)) : ∀ (s0 : RAGState),
    (ds.foldl (fun st p => addDocumentToIndex embed st p.1 p.2) s0).conversation_history
      = s0.conversation_history := by
  induction ds with
  | nil => intro s0; rfl
  | cons d tl ih =>
    intro s0
    rw [List.foldl_cons, ih]
    unfold addDocumentToIndex
    cases embed d.1 <;> rfl

/-- Full characterization of `_index_comparison_data`: the conversation
history and context pass through, and the three parallel storages are rebuilt
from scratch out of the current context's documents (skipping those whose
embedding fails). -/
theorem indexComparisonData_eq (embed : String → Option Vec) (s : RAGState) :
    indexComparisonData embed s =
      { conversation_history := s.conversation_history
        current_context := s.current_context
        documents := (currentDocuments s.current_context).filterMap
          (fun p => if (embed p.1).isSome then Option.some p.1 else Option.none)
        document_metadata := (currentDocuments s.current_context).filterMap
          (fun p => if (embed p.1).isSome then Option.some p.2 else Option.none)
        index := (currentDocuments s.current_context).filterMap (fun p => embed p.1) } := by
  unfold indexComparisonData
  ext1
  · rw [indexFold_history]
  · rw [indexFold_context]
  · rw [indexFold_documents]; rfl
  · rw [indexFold_metadata]; rfl
  · rw [indexFold_index]; rfl

theorem length_filterMap_guard {α β γ : Type} (g : α → Option γ) (f1 : α → β) :
    ∀ ds : List α,
    (ds.filterMap (fun p => if (g p).isSome then Option.some (f1 p) else Option.none)).length
      = (ds.filterMap g).length := by
  intro ds
  induction ds with
  | nil => rfl
  | cons a tl ih =>
    rw [List.filterMap_cons, List.filterMap_cons]
    cases h : g a <;> simp [h, ih]

-- ### Claim C8

/-- C8: after any indexing run — for an arbitrary embedding capability, so
including runs where embedding fails for some documents — the parallel-storage
invariant `len(documents) == len(document_metadata) == index count` holds; a
failed document is skipped whole (the storages are exactly the
successfully-embedded documents, in order) and a single `_add_document_to_index`
grows all three storages by one on success and none on failure. -/
theorem claim_C8 (embed : String → Option Vec) (s : RAGState) :
    ((indexComparisonData embed s).documents.length
        = (indexComparisonData embed s).document_metadata.length
      ∧ (indexComparisonData embed s).documents.length
          = (indexComparisonData embed s).index.length)
      ∧ (indexComparisonData embed s).documents
          = (currentDocuments s.current_context).filterMap
              (fun p => if (embed p.1).isSome then Option.some p.1 else Option.none)
      ∧ (∀ text meta,
          (addDocumentToIndex embed s text meta).documents.length
              = s.documents.length + (if (embed text).isSome then 1 else 0)
            ∧ (addDocumentToIndex embed s text meta).document_metadata.length
                = s.document_metadata.length + (if (embed text).isSome then 1 else 0)
            ∧ (addDocumentToIndex embed s text meta).index.length
                = s.index.length + (if (embed text).isSome then 1 else 0)) := by
  refine ⟨⟨?_, ?_⟩, ?_, ?_⟩
  · rw [indexComparisonData_eq]
    simp only
    rw [length_filterMap_guard (fun p => embed p.1) Prod.fst,
      length_filterMap_guard (fun p => embed p.1) Prod.snd]
  · rw [indexComparisonData_eq]
    simp only
    rw [length_filterMap_guard (fun p => embed p.1) Prod.fst]
  · rw [indexComparisonData_eq]
  · intro text meta
    unfold addDocumentToIndex
    cases h : embed text <;> simp [h]

-- ### Claim C6

/-- C6: setting a new context fully discards the previous one.  A second
`set_comparison_context` yields exactly the state a single call with the
second data would have produced (documents, metadata and vector index are
rebuilt from the second context alone — they are precisely its
successfully-embedded documents), so every subsequent search returns the same
results as if the first context had never existed. -/
theorem claim_C6 (embed : String → Option Vec) (s : RAGState)
    (d1 d2 : ComparisonData) :
    setComparisonContext embed (setComparisonContext embed s d1) d2
        = setComparisonContext embed s d2
      ∧ (setComparisonContext embed s d2).documents
          = (contextDocuments (contextOfData d2)).filterMap
              (fun p => if (embed p.1).isSome then Option.some p.1 else Option.none)
      ∧ ∀ q k, searchSimilarDocuments embed
            (setComparisonContext embed (setComparisonContext embed s d1) d2) q k
          = searchSimilarDocuments embed (setComparisonContext embed s d2) q k := by
  have hmain : setComparisonContext embed (setComparisonContext embed s d1) d2
      = setComparisonContext embed s d2 := by
    unfold setComparisonContext
    ext1 <;> simp [indexComparisonData_eq, currentDocuments]
  refine ⟨hmain, ?_, ?_⟩
  · unfold setComparisonContext
    rw [indexComparisonData_eq]
    simp [currentDocuments]
  · intro q k
    rw [hmain]

-- ### Claim C7 helper lemmas: `hitLE` is a total preorder on hits

theorem hitLE_trans : ∀ a b c : ℚ × ℕ, hitLE a b → hitLE b c → hitLE a c := by
  intro a b c hab hbc
  unfold hitLE at hab hbc ⊢
  by_cases h1 : a.1 = b.1 <;> by_cases h2 : b.1 = c.1
  · rw [if_pos h1] at hab
    rw [if_pos h2] at hbc
    rw [if_pos (h1.trans h2)]
    exact decide_eq_true (le_trans (of_decide_eq_true hab) (of_decide_eq_true hbc))
  · rw [if_neg h2] at hbc
    have hlt : c.1 < a.1 := by rw [h1]; exact of_decide_eq_true hbc
    rw [if_neg (ne_of_gt hlt)]
    exact decide_eq_true hlt
  · rw [if_neg h1] at hab
    have hlt : c.1 < a.1 := by rw [← h2]; exact of_decide_eq_true hab
    rw [if_neg (ne_of_gt hlt)]
    exact decide_eq_true hlt
  · rw [if_neg h1] at hab
    rw [if_neg h2] at hbc
    have hlt : c.1 < a.1 := lt_trans (of_decide_eq_true hbc) (of_decide_eq_true hab)
    rw [if_neg (ne_of_gt hlt)]
    exact decide_eq_true hlt

theorem hitLE_total : ∀ a b : ℚ × ℕ, hitLE a b || hitLE b a := by
  intro a b
  unfold hitLE
  by_cases h : a.1 = b.1
  · rw [if_pos h, if_pos h.symm]
    rcases Nat.le_total a.2 b.2 with hle | hle
    · rw [decide_eq_true hle]
      rfl
    · rw [decide_eq_true hle]
      simp
  · rw [if_neg h, if_neg (Ne.symm h)]
    rcases lt_or_gt_of_ne h with hlt | hlt
    · rw [decide_eq_true hlt]
      simp
    · rw [decide_eq_true hlt]
      rfl

theorem hitLE_score {a b : ℚ × ℕ} (h : hitLE a b) : b.1 ≤ a.1 := by
  unfold hitLE at h
  by_cases he : a.1 = b.1
  · exact le_of_eq he.symm
  · rw [if_neg he] at h
    exact le_of_lt (of_decide_eq_true h)

theorem hitLE_tie {a b : ℚ × ℕ} (h : hitLE a b) (hne : a.2 ≠ b.2) (he : a.1 = b.1) :
    a.2 < b.2 := by
  unfold hitLE at h
  rw [if_pos he] at h
  have hle : a.2 ≤ b.2 := of_decide_eq_true h
  omega

-- ### Claim C7

/-- C7: for an index of N vectors, the (spec-modelled) FAISS top-k search
returns exactly `min k N` hits, sorted by non-increasing inner-product score
with strict insertion-order tie-break; searching an empty index — and, at
the source level, calling `_search_similar_documents` on a state whose index
is empty — returns the empty list rather than failing. -/
theorem claim_C7 (vecs : List Vec) (q : Vec) (k : ℕ) :
    (searchIndex vecs q k).length = min k vecs.length
      ∧ (searchIndex vecs q k).Pairwise (fun a b => b.1 ≤ a.1)
      ∧ (searchIndex vecs q k).Pairwise (fun a b => a.1 = b.1 → a.2 < b.2)
      ∧ searchIndex [] q k = []
      ∧ (∀ (embed : String → Option Vec) (s : RAGState) (qq : String) (kk : ℕ),
          searchSimilarDocuments embed { s with index := [] } qq kk = []) := by
  have hsorted := List.Pairwise.sublist
    (List.take_sublist k (((vecs.map (dotProduct q)).enum.map
      (fun p => (p.2, p.1))).mergeSort hitLE))
    (List.sorted_mergeSort hitLE_trans hitLE_total
      ((vecs.map (dotProduct q)).enum.map (fun p => (p.2, p.1))))
  have hnodup : ((searchIndex vecs q k).map Prod.snd).Nodup := by
    have hpairs : (((vecs.map (dotProduct q)).enum.map
        (fun p => (p.2, p.1))).map Prod.snd).Nodup := by
      rw [List.map_map]
      have : (Prod.snd ∘ fun p : ℕ × ℚ => (p.2, p.1)) = Prod.fst := rfl
      rw [this, List.enum_map_fst]
      exact List.nodup_range _
    have hperm := (List.mergeSort_perm ((vecs.map (dotProduct q)).enum.map
      (fun p => (p.2, p.1))) hitLE).map Prod.snd
    exact List.Nodup.sublist
      (List.Sublist.map Prod.snd (List.take_sublist k _)) (hperm.symm.nodup hpairs)
  have hposne : (searchIndex vecs q k).Pairwise (fun a b => a.2 ≠ b.2) :=
    List.pairwise_map.mp hnodup
  refine ⟨?_, ?_, ?_, ?_, ?_⟩
  · simp [searchIndex]
  · exact hsorted.imp (fun hab => hitLE_score hab)
  · exact (hsorted.and hposne).imp (fun h => hitLE_tie h.1 h.2)
  · simp [searchIndex]
  · intro embed s qq kk
    unfold searchSimilarDocuments
    simp

-- ### Claim C5 helper lemmas: FIFO eviction of the conversation history

/-- The last (at most) ten entries of a list, Python `l[-10:]`. -/
def lastTen {α : Type} (l : List α) : List α := l.drop (l.length - 10)

theorem addToConversation_history (s : RAGState) (ts u a : String) :
    (addToConversation s ts u a).conversation_history
      = lastTen (s.conversation_history ++ [(ts, u, a)]) := by
  unfold addToConversation lastTen
  dsimp only
  by_cases h : (s.conversation_history ++ [(ts, u, a)]).length > 10
  · rw [if_pos h]
  · rw [if_neg h]
    have hz : (s.conversation_history ++ [(ts, u, a)]).length - 10 = 0 := by omega
    rw [hz, List.drop_zero]

theorem lastTen_length_le {α : Type} (l : List α) : (lastTen l).length ≤ 10 := by
  unfold lastTen
  rw [List.length_drop]
  omega

theorem lastTen_append {α : Type} (x y : List α) :
    lastTen (lastTen x ++ y) = lastTen (x ++ y) := by
  unfold lastTen
  rw [← List.drop_append_of_le_length (Nat.sub_le x.length 10)]
  rw [List.drop_drop]
  congr 1
  simp only [List.length_drop, List.length_append]
  omega

theorem foldl_lastTen {α : Type} (l : List α) : ∀ h : List α, h.length ≤ 10 →
    l.foldl (fun acc t => lastTen (acc ++ [t])) h = lastTen (h ++ l) := by
  induction l with
  | nil =>
    intro h hle
    rw [List.foldl_nil]
    unfold lastTen
    rw [List.append_nil]
    have hz : h.length - 10 = 0 := by omega
    rw [hz, List.drop_zero]
  | cons t ts ih =>
    intro h hle
    simp only [List.foldl_cons]
    rw [ih (lastTen (h ++ [t])) (lastTen_length_le _), lastTen_append,
      List.append_assoc]
    rfl

theorem addToConversation_context (s : RAGState) (ts u a : String) :
    (addToConversation s ts u a).current_context = s.current_context := rfl

/-- After a run of queries against a fixed context, the final history is the
`[-10:]` suffix of the initial history extended by one turn per query; the
response of each turn is computed from the (query-invariant) context, document
storage and index of the initial state. -/
theorem runQueries_eq (embed : String → Option Vec) (ts : String) :
    ∀ (qs : List String) (s : RAGState) (ctx : Context),
      s.current_context = Option.some ctx →
      runQueries embed ts s qs
        = { s with conversation_history :=
            ((qs.map (fun q => (ts, q, generateResponse embed s ctx q))).foldl
              (fun acc t => lastTen (acc ++ [t])) s.conversation_history) } := by
  intro qs
  induction qs with
  | nil => intro s ctx _; rfl
  | cons q tl ih =>
    intro s ctx h
    have hPQ : (processQuery embed ts s q).2
        = addToConversation s ts q (generateResponse embed s ctx q) := by
      unfold processQuery
      rw [h]
    show runQueries embed ts ((processQuery embed ts s q).2) tl = _
    rw [hPQ, ih (addToConversation s ts q (generateResponse embed s ctx q)) ctx
      (by rw [addToConversation_context]; exact h)]
    rw [addToConversation_history]
    rfl

theorem getLast_drop_one {α : Type} (l : List α) (h : l.drop 1 ≠ []) :
    (l.drop 1).getLast? = l.getLast? := by
  conv_rhs => rw [← List.take_append_drop 1 l]
  rw [List.getLast?_append]
  have hs : (l.drop 1).getLast?.isSome := by
    rw [List.getLast?_isSome]
    exact h
  rcases hx : (l.drop 1).getLast? with _ | a
  · rw [hx] at hs
    simp at hs
  · rfl

-- ### Claim C5

/-- C5: the conversation history is FIFO-bounded at 10 turns.
`add_to_conversation` always leaves at most 10 turns; starting from an empty
history with an active context, 11 successive `process_query` calls leave
exactly the turns of queries 2..11 (the first turn has been evicted, provided
its query text does not recur) and the 11th query's turn is the newest
entry. -/
theorem claim_C5 (embed : String → Option Vec) (ts : String) (s : RAGState)
    (ctx : Context) (qs : List String) (q0 : String)
    (h1 : s.current_context = Option.some ctx)
    (h2 : s.conversation_history = [])
    (h3 : qs.length = 11)
    (h4 : qs.head? = Option.some q0)
    (h5 : q0 ∉ qs.tail) :
    (∀ (s' : RAGState) (t u a : String),
        (addToConversation s' t u a).conversation_history.length ≤ 10)
      ∧ (runQueries embed ts s qs).conversation_history
          = (qs.map (fun q => (ts, q, generateResponse embed s ctx q))).drop 1
      ∧ (runQueries embed ts s qs).conversation_history.length = 10
      ∧ (ts, q0, generateResponse embed s ctx q0)
          ∉ (runQueries embed ts s qs).conversation_history
      ∧ (runQueries embed ts s qs).conversation_history.getLast?
          = (qs.map (fun q => (ts, q, generateResponse embed s ctx q))).getLast? := by
  have hhist : (runQueries embed ts s qs).conversation_history
      = (qs.map (fun q => (ts, q, generateResponse embed s ctx q))).drop 1 := by
    rw [runQueries_eq embed ts qs s ctx h1]
    show (qs.map (fun q => (ts, q, generateResponse embed s ctx q))).foldl
      (fun acc t => lastTen (acc ++ [t])) s.conversation_history = _
    rw [h2, foldl_lastTen _ [] (by simp), List.nil_append]
    unfold lastTen
    rw [List.length_map, h3]
  have hlen : (runQueries embed ts s qs).conversation_history.length = 10 := by
    rw [hhist, List.length_drop, List.length_map, h3]
  refine ⟨?_, hhist, hlen, ?_, ?_⟩
  · intro s' t u a
    rw [addToConversation_history]
    exact lastTen_length_le _
  · rw [hhist]
    cases qs with
    | nil => simp at h3
    | cons qh qt =>
      simp only [List.head?_cons, Option.some.injEq] at h4
      simp only [List.map_cons, List.drop_succ_cons, List.drop_zero]
      intro hmem
      rw [List.mem_map] at hmem
      obtain ⟨x, hx, heq⟩ := hmem
      have hx0 : x = q0 := congrArg (fun p => p.2.1) heq
      rw [hx0] at hx
      exact h5 hx
  · rw [hhist]
    apply getLast_drop_one
    intro hnil
    have := congrArg List.length hnil
    rw [List.length_drop, List.length_map, h3] at this
    simp at this

/-- Witness for C5: a concrete run of 11 queries against a minimal active
context, with the embedding capability unavailable. -/
theorem claim_C5_witness :
    (({ current_context := Option.some {} } : RAGState).current_context
        = Option.some ({} : Context))
      ∧ ((runQueries (fun _ => Option.none) "t0"
          { current_context := Option.some {} }
          ["q1", "q2", "q3", "q4", "q5", "q6", "q7", "q8", "q9", "q10",
            "q11"]).conversation_history.length = 10)
      ∧ ("t0", "q1", generateResponse (fun _ => Option.none)
            { current_context := Option.some {} } {} "q1")
          ∉ ((runQueries (fun _ => Option.none) "t0"
              { current_context := Option.some {} }
              ["q1", "q2", "q3", "q4", "q5", "q6", "q7", "q8", "q9", "q10",
                "q11"]).conversation_history) := by
  have h := claim_C5 (fun _ => Option.none) "t0"
    { current_context := Option.some {} } {}
    ["q1", "q2", "q3", "q4", "q5", "q6", "q7", "q8", "q9", "q10", "q11"] "q1"
    rfl rfl rfl rfl (by decide)
  exact ⟨rfl, h.2.2.1, h.2.2.2.1⟩

-- ### Claim C9 helper lemmas: every response builder yields a non-empty string

theorem foldl_preserve_ne_empty {α : Type} (f : String → α → String)
    (hf : ∀ (acc : String) (c : α), acc ≠ "" → f acc c ≠ "") (l : List α) :
    ∀ base : String, base ≠ "" → l.foldl f base ≠ "" := by
  induction l with
  | nil => intro base h; exact h
  | cons a as ih =>
    intro base h
    rw [List.foldl_cons]
    exact ih (f base a) (hf base a h)

theorem generateContextSummary_ne_empty (ctxO : Option Context) :
    generateContextSummary ctxO ≠ "" := by
  unfold generateContextSummary
  cases ctxO with
  | none => decide
  | some ctx =>
    dsimp only
    apply foldl_preserve_ne_empty
    · intro acc c h
      exact append_ne_empty_left _ h
    · split
      · repeat' apply append_ne_empty_left
        decide
      · split
        · apply append_ne_empty_right
          decide
        · repeat' apply append_ne_empty_left
          decide

theorem keyPatternsBlock_ne_empty (header : String) (p : Patterns) :
    keyPatternsBlock header p ≠ "" := by
  unfold keyPatternsBlock
  dsimp only
  apply append_ne_empty_right
  decide

theorem generateEnhancedResponse_ne_empty (q : String) (docs : List SearchResult)
    (summary : String) (pOpt : Option Patterns) :
    generateEnhancedResponse q docs summary pOpt ≠ "" := by
  unfold generateEnhancedResponse
  dsimp only
  apply append_ne_empty_right
  decide

theorem handleSummaryQuery_ne_empty (summary : String) (pOpt : Option Patterns) :
    handleSummaryQuery summary pOpt ≠ "" := by
  unfold handleSummaryQuery
  cases pOpt with
  | none =>
    dsimp only
    apply append_ne_empty_right
    decide
  | some p =>
    dsimp only
    split
    · exact keyPatternsBlock_ne_empty _ _
    · apply append_ne_empty_right
      decide

theorem handleFinancialQuery_ne_empty (ctx : Context) : handleFinancialQuery ctx ≠ "" := by
  unfold handleFinancialQuery
  split
  · decide
  · apply foldl_preserve_ne_empty
    · intro acc c h
      exact append_ne_empty_left _ h
    · decide

theorem handleIndustryQuery_ne_empty (ctx : Context) (pOpt : Option Patterns) :
    handleIndustryQuery ctx pOpt ≠ "" := by
  unfold handleIndustryQuery
  dsimp only
  split
  · decide
  · apply foldl_preserve_ne_empty
    · intro acc c h
      repeat' apply append_ne_empty_left
      exact h
    · apply append_ne_empty_right
      decide

theorem handleComparisonQuery_ne_empty (ctx : Context) : handleComparisonQuery ctx ≠ "" := by
  unfold handleComparisonQuery
  split
  · decide
  · apply foldl_preserve_ne_empty
    · intro acc c h
      exact append_ne_empty_left _ h
    · decide

theorem handleRecommendationQuery_ne_empty (ctx : Context) :
    handleRecommendationQuery ctx ≠ "" := by
  unfold handleRecommendationQuery
  dsimp only
  split
  · decide
  · split
    · apply append_ne_empty_right
      decide
    · apply append_ne_empty_right
      decide

theorem handleGeneralQuery_ne_empty (q : String) (summary : String) :
    handleGeneralQuery q summary ≠ "" := by
  unfold handleGeneralQuery
  apply append_ne_empty_right
  decide

theorem generateResponse_ne_empty (embed : String → Option Vec) (s : RAGState)
    (ctx : Context) (q : String) : generateResponse embed s ctx q ≠ "" := by
  unfold generateResponse
  dsimp only
  split
  · exact generateEnhancedResponse_ne_empty _ _ _ _
  · split
    · exact handleSummaryQuery_ne_empty _ _
    · split
      · exact handleFinancialQuery_ne_empty _
      · split
        · exact handleIndustryQuery_ne_empty _ _
        · split
          · exact handleComparisonQuery_ne_empty _
          · split
            · exact handleRecommendationQuery_ne_empty _
            · exact handleGeneralQuery_ne_empty _ _

-- ### Claim C9

/-- C9: `process_query` is a total function of the model (so it terminates)
and on every input — any query, any context state, any behaviour of the
embedding capability — it returns a non-empty response string: the no-context
advisory path, the enhanced-retrieval path, each of the five keyword handlers
and the general handler all produce non-empty text. -/
theorem claim_C9 (embed : String → Option Vec) (timestamp : String) (s : RAGState)
    (q : String) : (processQuery embed timestamp s q).1 ≠ "" := by
  unfold processQuery
  cases s.current_context with
  | none =>
    show noContextMessage ≠ ""
    decide
  | some ctx => exact generateResponse_ne_empty embed s ctx q

-- ### Claim C10

/-- C10: any `set_comparison_context` call — including one with an empty
input object, since the stored dict always carries all five keys — leaves a
truthy context, so `get_context_info` reports `has_context = true`; no
operation ever clears the context (`process_query`, `clear_conversation` and
`add_to_conversation` preserve it), and whenever the context is truthy
`process_query` takes the non-advisory branch, recording a conversation
turn. -/
theorem claim_C10 (embed : String → Option Vec) (timestamp : String) (s : RAGState)
    (d : ComparisonData) (q u a t : String) :
    (setComparisonContext embed s d).current_context = Option.some (contextOfData d)
      ∧ (getContextInfo (setComparisonContext embed s d)).1 = true
      ∧ ((processQuery embed timestamp s q).2).current_context = s.current_context
      ∧ (clearConversation s).current_context = s.current_context
      ∧ (addToConversation s t u a).current_context = s.current_context
      ∧ (s.current_context.isSome = true →
          (processQuery embed timestamp s q).2
            = addToConversation s timestamp q (processQuery embed timestamp s q).1) := by
  have hset : (setComparisonContext embed s d).current_context
      = Option.some (contextOfData d) := by
    unfold setComparisonContext
    rw [indexComparisonData_eq]
  refine ⟨hset, ?_, ?_, rfl, rfl, ?_⟩
  · unfold getContextInfo
    dsimp only
    rw [hset]
    rfl
  · cases hc : s.current_context with
    | none =>
      unfold processQuery
      rw [hc]
      exact hc
    | some ctx =>
      unfold processQuery
      rw [hc]
      exact hc
  · intro h
    cases hc : s.current_context with
    | none => rw [hc] at h; simp at h
    | some ctx =>
      unfold processQuery
      rw [hc]

/-- Witness for C10 at a concrete state with an active context. -/
theorem claim_C10_witness :
    (({ current_context := Option.some {} } : RAGState).current_context.isSome = true)
      ∧ (processQuery (fun _ => Option.none) "t0"
            { current_context := Option.some {} } "hi").2
          = addToConversation { current_context := Option.some {} } "t0" "hi"
              (processQuery (fun _ => Option.none) "t0"
                { current_context := Option.some {} } "hi").1 :=
  ⟨rfl, (claim_C10 (fun _ => Option.none) "t0" { current_context := Option.some {} }
      {} "hi" "u" "a" "t").2.2.2.2.2 rfl⟩

/-- Witness for C3 at the concrete falsy value `None`. -/
theorem claim_C3_witness :
    metricGuard PyVal.none = false
      ∧ marketCapInsights PyVal.none = [] ∧ peInsights PyVal.none = []
      ∧ pbInsights PyVal.none = [] ∧ roeInsights PyVal.none = []
      ∧ netMarginInsights PyVal.none = [] := by
  have h := (claim_C3 PyVal.none).2.1 rfl
  exact ⟨rfl, h.1, h.2.1, h.2.2.1, h.2.2.2.1, h.2.2.2.2⟩
